import Mathlib

/-!
Verification of the Pitch-Lens deal-processing pipeline.

This file gives a shallow embedding of the two source files of the
repository — `Backend/main.py` (the orchestrator: `upload_deal`,
`process_deal`, `generate_memo`) and `Backend/utils/ocr_utils.py`
(`PDFProcessor.process_pdf`, `PDFProcessor._extract_text_from_pdf`) —
and proves the specification's claims about them.

External collaborators that are part of the repository but whose source
is not available here (the Gemini summarizer, the public-data gatherer,
the Firestore manager, the GCS manager, the DOCX exporter) are modelled
from the spec as injected outcomes: each fallible call is a value of
type `Except String α` supplied as a parameter, and the Firestore
`update_deal` with dotted field paths is modelled as a field-path merge
on a record with optional fields, per §5 of the spec
("Field-path partial updates to a document store → model as a
merge-patch operation on a keyed record abstraction").

Python dictionaries are modelled as association lists, `str.strip` as
`String.trim`, and a `KeyError` for key `k` carries the Python message
`str(KeyError(k))`, which is the key wrapped in single quotes.
-/

namespace PitchLens

/-! ## OCR data model (`ocr_utils.py`)

The Vision API writes its results as JSON blobs under an output
path in the bucket.  Each blob has a name and a parsed JSON body
`{"responses": [...]}`; each response optionally carries
`fullTextAnnotation.text` (absent is modelled as `""`, which is what
`full.get("text", "")` produces) and a `pages → blocks → paragraphs →
words → symbols` hierarchy used by the fallback reconstruction. -/

structure OcrSymbol where
  text : String
deriving DecidableEq, Repr

structure OcrWord where
  symbols : List OcrSymbol
deriving DecidableEq, Repr

structure OcrPara where
  words : List OcrWord
deriving DecidableEq, Repr

structure OcrBlock where
  paragraphs : List OcrPara
deriving DecidableEq, Repr

structure OcrPage where
  blocks : List OcrBlock
deriving DecidableEq, Repr

structure OcrResponse where
  fullText : String
  pages : List OcrPage
deriving DecidableEq, Repr

structure Blob where
  name : String
  responses : List OcrResponse
deriving DecidableEq, Repr

/-- Python `str.strip()`: drop leading and trailing whitespace.  Defined
over the character list so that it evaluates by kernel reduction. -/
def strTrim (s : String) : String :=
  ⟨((s.data.dropWhile Char.isWhitespace).reverse.dropWhile
      Char.isWhitespace).reverse⟩

/-- Python `str.endswith(suf)`.  Defined over the character list so that
it evaluates by kernel reduction. -/
def strEndsWith (s suf : String) : Bool :=
  suf.data.isSuffixOf s.data

/-- Strings with equal character lists are equal. -/
lemma string_eq_of_data_eq : ∀ {s t : String}, s.data = t.data → s = t
  | ⟨_⟩, ⟨_⟩, h => congrArg String.mk h

/-- Text of one word: `"".join(s.get("text","") for s in word.get("symbols", []))`. -/
def wordText (w : OcrWord) : String :=
  String.join (w.symbols.map OcrSymbol.text)

/-- Text of one paragraph: `" ".join(words)`. -/
def paraText (p : OcrPara) : String :=
  String.intercalate " " (p.words.map wordText)

/-- Fallback reconstruction in `_extract_text_from_pdf`: collect the
paragraph strings of every block of every page, join with `"\n"`, strip. -/
def reconstructText (pages : List OcrPage) : String :=
  strTrim (String.intercalate "\n"
    (((pages.flatMap OcrPage.blocks).flatMap OcrBlock.paragraphs).map paraText))

/-- Page text of one OCR response: prefer `fullTextAnnotation.text`; when it
is empty (`if not page_text:`), reconstruct from the block hierarchy. -/
def responseText (r : OcrResponse) : String :=
  if r.fullText = "" then reconstructText r.pages else r.fullText

/-- Per-blob contribution to the page-text list: each response's text is
stripped, and appended only when non-empty
(`if page_text.strip(): texts.append(page_text.strip())`). -/
def blobPageTexts (b : Blob) : List String :=
  b.responses.filterMap fun r =>
    let t := strTrim (responseText r)
    if t = "" then none else some t

/-- Json-name check: `blob.name.endswith(".json")`; other blobs are skipped
by `continue`. -/
def blobIsJson (b : Blob) : Bool :=
  strEndsWith b.name ".json"

/-- Ordering relation used to sort blobs — `key=lambda b: b.name` with
Python's lexicographic string comparison, i.e. the lexicographic order
on the character lists. -/
def blobLe (a b : Blob) : Prop :=
  a.name.data ≤ b.name.data

instance : DecidableRel blobLe := fun a b =>
  inferInstanceAs (Decidable (a.name.data ≤ b.name.data))

instance : IsTotal Blob blobLe :=
  ⟨fun a b => le_total a.name.data b.name.data⟩

instance : IsTrans Blob blobLe :=
  ⟨fun _ _ _ h₁ h₂ => le_trans h₁ h₂⟩

/-- Deterministic ordering of the output blobs:
`sorted(list(bucket.list_blobs(prefix=out_pre)), key=lambda b: b.name)`. -/
def sortBlobs (blobs : List Blob) : List Blob :=
  List.insertionSort blobLe blobs

/-- Body of the blob-parsing loop of `_extract_text_from_pdf`, given the
listed output blobs: sort by name, keep only `.json` blobs, concatenate
their page texts; a final empty result is replaced by `[""]`
(`return texts if texts else [""]`).  The best-effort `blob.delete()` has
no effect on the returned value and is not modelled. -/
def extractFromBlobs (blobs : List Blob) : List String :=
  let texts := ((sortBlobs blobs).filter blobIsJson).flatMap blobPageTexts
  if texts.isEmpty then [""] else texts

/-- Whole of `_extract_text_from_pdf`: the Vision call, the wait on the
long-running operation (bounded by 600 s) and the blob listing may fail or
time out; the surrounding `try` turns any such failure into the sentinel
`[""]` (`except Exception: return [""]`).  The outcome of the external OCR
call is injected as an `Except` value: `.ok blobs` is a completed OCR run
that produced `blobs`, `.error` is any raised exception or timeout. -/
def extract_text_from_pdf (outcome : Except String (List Blob)) : List String :=
  match outcome with
  | .error _ => [""]
  | .ok blobs => extractFromBlobs blobs

/-! ## Summarization and `process_pdf` (`ocr_utils.py`) -/

/-- Modelled from the spec: the Gemini summarizer
(`utils/summarizer.py`, not available here) — `summarize_pitch_deck`
returns a dictionary with a condensed summary and the three extracted
entity fields (`summary_res`, `founder_response`, `sector_response`,
`company_name_response`); per §4.2 it "must produce all four fields"
on success, while an LLM failure raises and is an upstream service
error per §7.  A call outcome is injected as `Except String
SummarizeResult`. -/
structure SummarizeResult where
  summary_res : String
  founder_response : String
  sector_response : String
  company_name_response : String
deriving DecidableEq, Repr

/-- Result dictionary of `process_pdf`.  On success all five keys are
present; the `except` branch returns only `{"raw": {"1": ""}, "concise":
"Error in OCR processing."}`, so the three entity keys are modelled as
`Option` (`none` = key absent from the Python dict). -/
structure PdfData where
  raw : List (String × String)
  concise : String
  founder_response : Option String
  sector_response : Option String
  company_name_response : Option String
deriving DecidableEq, Repr

/-- Text fed to the summarizer:
`"\n\n".join(f"Page {i + 1}: {t}" for i, t in enumerate(page_texts) if t)`. -/
def joinPages (page_texts : List String) : String :=
  String.intercalate "\n\n"
    (page_texts.enum.filterMap fun it =>
      if it.2 = "" then none
      else some ("Page " ++ toString (it.1 + 1) ++ ": " ++ it.2))

/-- Raw page dictionary: `{str(i + 1): t for i, t in enumerate(page_texts)}`. -/
def rawPages (page_texts : List String) : List (String × String) :=
  page_texts.enum.map fun it => (toString (it.1 + 1), it.2)

/-- Whole of `PDFProcessor.process_pdf`: extract page texts (that call
never raises), join them, summarize.  On success return the full result
dictionary; on any exception (in practice only the summarizer call can
raise here) return the sentinel `{"raw": {"1": ""}, "concise": "Error in
OCR processing."}`, which lacks the three entity keys.  The summarizer
outcome is injected as a function of the joined text. -/
def process_pdf (ocrOutcome : Except String (List Blob))
    (summOutcome : String → Except String SummarizeResult) : PdfData :=
  let page_texts := extract_text_from_pdf ocrOutcome
  let full_text := joinPages page_texts
  match summOutcome full_text with
  | .ok cs =>
      { raw := rawPages page_texts
        concise := cs.summary_res
        founder_response := some cs.founder_response
        sector_response := some cs.sector_response
        company_name_response := some cs.company_name_response }
  | .error _ =>
      { raw := [("1", "")]
        concise := "Error in OCR processing."
        founder_response := none
        sector_response := none
        company_name_response := none }

/-! ## Deal Store data model (`main.py` + Firestore collaborator)

The enrichment result, the weighting configuration and timestamps are
opaque payloads to the orchestrator; they are modelled as `String` /
`Nat`. -/

/-- Modelled from the spec: the structured public-data findings returned
by the enrichment service (`utils/search_utils.py`, not available here);
opaque to the orchestrator. -/
abbrev PublicData := String

/-- Modelled from the spec: the user-supplied weighting configuration
(`weightage.dict()`); opaque to the orchestrator. -/
abbrev Weightage := String

/-- Value stored under `extracted_text["pitch_deck"]`:
`{"raw": pdf_data["raw"], "concise": pdf_data["concise"]}`. -/
structure ExtractEntry where
  raw : List (String × String)
  concise : String
deriving DecidableEq, Repr

/-- Value stored under `memo`:
`{"draft_v1": ..., "docx_url": ..., "generated_at": ...}`. -/
structure MemoData where
  draft_v1 : String
  docx_url : String
  generated_at : Nat
deriving DecidableEq, Repr

/-- One Firestore deal document.  Every mutable field is `Option`
(`none` = the field path is absent from the document). -/
structure DealDoc where
  deal_id : String
  metadata_status : Option String := none
  metadata_created_at : Option Nat := none
  metadata_processed_at : Option Nat := none
  metadata_company_name : Option String := none
  metadata_founder_names : Option String := none
  metadata_sector : Option String := none
  metadata_error : Option String := none
  metadata_weightage : Option Weightage := none
  raw_files : Option (List (String × String)) := none
  extracted_text : Option (List (String × ExtractEntry)) := none
  public_data : Option PublicData := none
  memo : Option MemoData := none
deriving DecidableEq, Repr

/-- One field-path entry of a Firestore `update_deal` call; each
constructor is one dotted field path written by `main.py`. -/
inductive FieldWrite where
  | status (v : String)
  | errMsg (v : String)
  | companyName (v : String)
  | founderNames (v : String)
  | sector (v : String)
  | processedAt (t : Nat)
  | weightage (w : Weightage)
  | rawFiles (m : List (String × String))
  | extractedText (e : List (String × ExtractEntry))
  | publicData (p : PublicData)
  | memo (m : MemoData)
deriving DecidableEq, Repr

/-- One `update_deal` call: a dictionary of field paths applied together. -/
abbrev UpdateOp := List FieldWrite

/-- Modelled from the spec: Firestore's field-path update
(`utils/firestore_utils.py`, not available here) — a dotted path like
`metadata.status` sets exactly that field and leaves every other field of
the document unchanged (§5: "partial-field updates to the Deal Store must
be applied as targeted field merges, not whole-document overwrites"). -/
def applyWrite (d : DealDoc) : FieldWrite → DealDoc
  | .status v => { d with metadata_status := some v }
  | .errMsg v => { d with metadata_error := some v }
  | .companyName v => { d with metadata_company_name := some v }
  | .founderNames v => { d with metadata_founder_names := some v }
  | .sector v => { d with metadata_sector := some v }
  | .processedAt t => { d with metadata_processed_at := some t }
  | .weightage w => { d with metadata_weightage := some w }
  | .rawFiles m => { d with raw_files := some m }
  | .extractedText e => { d with extracted_text := some e }
  | .publicData p => { d with public_data := some p }
  | .memo m => { d with memo := some m }

/-- Application of one `update_deal` call. -/
def applyOp (d : DealDoc) (op : UpdateOp) : DealDoc :=
  op.foldl applyWrite d

/-- Application of a sequence of `update_deal` calls, oldest first. -/
def applyOps (d : DealDoc) (ops : List UpdateOp) : DealDoc :=
  ops.foldl applyOp d

/-- Document created by `upload_deal` via `create_deal`: metadata with
status `"uploading"` and `created_at` (the other metadata fields are not
yet set). -/
def initialDeal (deal_id : String) (created_at : Nat) : DealDoc :=
  { deal_id := deal_id
    metadata_status := some "uploading"
    metadata_created_at := some created_at }

/-! ## Background Process stage (`process_deal` in `main.py`) -/

/-- Python `KeyError` message for key `k`: `str(KeyError(k))` is the key
wrapped in single quotes. -/
def keyErrorMsg (k : String) : String :=
  "'" ++ k ++ "'"

/-- Indexing `temp_res[k]`: `temp_res` is `{}` when no pitch deck was
uploaded (`none`), otherwise the `process_pdf` result dict, in which an
entity key may be absent (the sentinel branch).  A missing key raises
`KeyError(k)`. -/
def tempKey (temp_res : Option PdfData) (field : PdfData → Option String)
    (k : String) : Except String String :=
  match temp_res with
  | none => .error (keyErrorMsg k)
  | some pd =>
      match field pd with
      | none => .error (keyErrorMsg k)
      | some v => .ok v

/-- First half of the `try` body of `process_deal`: when
`'pitch_deck_url' in file_urls`, run `process_pdf` and build
`temp_res` and `extracted_text['pitch_deck']`; otherwise both stay
empty. -/
def pdfStep (file_urls : List (String × String))
    (ocrOutcome : Except String (List Blob))
    (summOutcome : String → Except String SummarizeResult) :
    Option PdfData × List (String × ExtractEntry) :=
  match file_urls.lookup "pitch_deck_url" with
  | some _ =>
      let pd := process_pdf ocrOutcome summOutcome
      (some pd, [("pitch_deck", { raw := pd.raw, concise := pd.concise })])
  | none => (none, [])

/-- Remainder of the `try` body of `process_deal` after the initial
`metadata.status = "processing"` write: index the three entity keys of
`temp_res` (left to right, as Python evaluates the arguments of
`gather_data`), call the enrichment service, and on success produce the
single final `update_deal` dictionary.  Any raised exception is the
`.error` case, carrying `str(e)`.  The enrichment outcome is injected as
a function of the three entities. -/
def process_deal_body (file_urls : List (String × String))
    (ocrOutcome : Except String (List Blob))
    (summOutcome : String → Except String SummarizeResult)
    (gatherOutcome : String → String → String → Except String PublicData)
    (now : Nat) : Except String UpdateOp :=
  let st := pdfStep file_urls ocrOutcome summOutcome
  match tempKey st.1 PdfData.company_name_response "company_name_response" with
  | .error e => .error e
  | .ok c =>
      match tempKey st.1 PdfData.founder_response "founder_response" with
      | .error e => .error e
      | .ok f =>
          match tempKey st.1 PdfData.sector_response "sector_response" with
          | .error e => .error e
          | .ok s =>
              match gatherOutcome c f s with
              | .error e => .error e
              | .ok pub =>
                  .ok [FieldWrite.extractedText st.2,
                       FieldWrite.publicData pub,
                       FieldWrite.status "processed",
                       FieldWrite.processedAt now,
                       FieldWrite.companyName c,
                       FieldWrite.founderNames f,
                       FieldWrite.sector s]

/-- Whole of `process_deal` as the sequence of `update_deal` calls it
performs: first `{"metadata.status": "processing"}`; then either the
single success dictionary, or — when any exception was raised in the
body — the `except` branch's `{"metadata.status": "error",
"metadata.error": str(e)}`.  The function is total: no exception leaves
the background task. -/
def process_deal_ops (file_urls : List (String × String))
    (ocrOutcome : Except String (List Blob))
    (summOutcome : String → Except String SummarizeResult)
    (gatherOutcome : String → String → String → Except String PublicData)
    (now : Nat) : List UpdateOp :=
  [FieldWrite.status "processing"] ::
    match process_deal_body file_urls ocrOutcome summOutcome gatherOutcome now with
    | .ok op => [op]
    | .error e => [[FieldWrite.status "error", FieldWrite.errMsg e]]

/-! ## Memo generation (`generate_memo` in `main.py`) -/

/-- FastAPI `HTTPException`, as raised by the endpoint handlers. -/
structure HTTPExc where
  status_code : Nat
  detail : String
deriving DecidableEq, Repr

/-- Exception raised inside the `try` body of an endpoint: either an
`HTTPException` raised on purpose, or any other exception (service
failures), carrying its message. -/
inductive PyErr where
  | http (e : HTTPExc)
  | other (msg : String)
deriving DecidableEq, Repr

/-- Python `str(e)` of an endpoint-body exception.  For a Starlette
`HTTPException` this is `f"{self.status_code}: {self.detail}"`. -/
def pyErrStr : PyErr → String
  | .http e => toString e.status_code ++ ": " ++ e.detail
  | .other msg => msg

/-- Response model of `POST /generate_memo/{deal_id}`. -/
structure MemoResponse where
  deal_id : String
  memo_text : String
  docx_url : String
  all_data : DealDoc
deriving DecidableEq, Repr

/-- Body of the `try` block of `generate_memo`, returning the outcome
together with the `update_deal` calls performed before the outcome was
reached.  `dealOpt` is the `get_deal` result; the memo-LLM call and the
DOCX export are injected outcomes; `deal_data_to_Send` is re-read from
the store after the weightage write, so it is the fetched document with
the weightage applied. -/
def generate_memo_inner (deal_id : String) (dealOpt : Option DealDoc)
    (w : Weightage) (memoOutcome : Except String String)
    (docxOutcome : Except String String) (now : Nat) :
    Except PyErr MemoResponse × List UpdateOp :=
  match dealOpt with
  | none => (.error (.http ⟨404, "Deal not found"⟩), [])
  | some d =>
      if d.metadata_status ≠ some "processed" then
        (.error (.http ⟨400, "Deal processing not complete"⟩), [])
      else
        let wOp : UpdateOp := [FieldWrite.weightage w]
        match memoOutcome with
        | .error m => (.error (.other m), [wOp])
        | .ok memo_text =>
            match docxOutcome with
            | .error m => (.error (.other m), [wOp])
            | .ok docx_url =>
                (.ok { deal_id := deal_id
                       memo_text := memo_text
                       docx_url := docx_url
                       all_data := applyOp d wOp },
                 [wOp, [FieldWrite.memo
                          { draft_v1 := memo_text
                            docx_url := docx_url
                            generated_at := now }]])

/-- Whole of the `generate_memo` endpoint.  The surrounding
`except Exception as e: raise HTTPException(status_code=500,
detail=str(e))` catches every exception of the body — `HTTPException`
is itself an `Exception` subclass, so the deliberate 404/400 rejections
are caught too — and re-raises a status-500 `HTTPException` carrying
`str(e)`. -/
def generate_memo (deal_id : String) (dealOpt : Option DealDoc)
    (w : Weightage) (memoOutcome : Except String String)
    (docxOutcome : Except String String) (now : Nat) :
    Except HTTPExc MemoResponse × List UpdateOp :=
  match generate_memo_inner deal_id dealOpt w memoOutcome docxOutcome now with
  | (.ok r, ops) => (.ok r, ops)
  | (.error e, ops) => (.error ⟨500, pyErrStr e⟩, ops)

/-! ## Status traces and the deal lifecycle -/

/-- Status values written by one `update_deal` call, in dictionary order. -/
def statusWritesOfOp (op : UpdateOp) : List String :=
  op.filterMap fun w =>
    match w with
    | .status v => some v
    | _ => none

/-- Status values written by a sequence of `update_deal` calls. -/
def statusTrace (ops : List UpdateOp) : List String :=
  ops.flatMap statusWritesOfOp

/-- Rank of a status in the fixed order
`uploading < processing < processed`, with the terminal `error` above
every non-error status (nothing ever follows an `error` write). -/
def statusRank : String → Nat
  | "uploading" => 0
  | "processing" => 1
  | "processed" => 2
  | _ => 3

/-- Forward order on observed status values. -/
def statusLe (a b : String) : Prop :=
  statusRank a ≤ statusRank b

/-- One call of the `generate_memo` endpoint during a deal's life: the
document the call reads from the store, and the injected outcomes of its
collaborator calls. -/
structure MemoCall where
  dealOpt : Option DealDoc
  w : Weightage
  memoOutcome : Except String String
  docxOutcome : Except String String
  now : Nat

/-- Every `update_deal` call of a deal's lifecycle, oldest first: the
upload's `raw_files` write, the background Process stage, then any
number of `generate_memo` calls. -/
def lifecycle_ops (file_urls : List (String × String))
    (ocrOutcome : Except String (List Blob))
    (summOutcome : String → Except String SummarizeResult)
    (gatherOutcome : String → String → String → Except String PublicData)
    (now : Nat) (deal_id : String) (memoCalls : List MemoCall) : List UpdateOp :=
  [FieldWrite.rawFiles file_urls] ::
    (process_deal_ops file_urls ocrOutcome summOutcome gatherOutcome now ++
      memoCalls.flatMap fun c =>
        (generate_memo deal_id c.dealOpt c.w c.memoOutcome c.docxOutcome c.now).2)

/-- Sequence of `metadata.status` values observed over a deal's life:
the value `"uploading"` written at creation by `create_deal`, followed
by every later status write. -/
def lifecycleStatusTrace (file_urls : List (String × String))
    (ocrOutcome : Except String (List Blob))
    (summOutcome : String → Except String SummarizeResult)
    (gatherOutcome : String → String → String → Except String PublicData)
    (now : Nat) (deal_id : String) (memoCalls : List MemoCall) : List String :=
  "uploading" ::
    statusTrace
      (lifecycle_ops file_urls ocrOutcome summOutcome gatherOutcome now
        deal_id memoCalls)

/-! ## Helper lemmas -/

section SortFilter

variable {α : Type} (r : α → α → Prop) [DecidableRel r]

lemma orderedInsert_of_forall_rel {x : α} :
    ∀ {s : List α}, (∀ z ∈ s, r x z) → List.orderedInsert r x s = x :: s
  | [], _ => rfl
  | z :: t, h => by
      simp only [List.orderedInsert, if_pos (h z (List.mem_cons_self z t))]

lemma filter_orderedInsert_neg (p : α → Bool) {x : α} (hx : p x = false) :
    ∀ s : List α, List.filter p (List.orderedInsert r x s) = List.filter p s
  | [] => by simp [List.orderedInsert, List.filter_cons, hx]
  | z :: t => by
      by_cases hz : r x z
      · simp [List.orderedInsert, hz, List.filter_cons, hx]
      · simp only [List.orderedInsert, if_neg hz, List.filter_cons]
        rw [filter_orderedInsert_neg p hx t]

lemma filter_orderedInsert_pos [IsTrans α r] (p : α → Bool) {x : α}
    (hx : p x = true) :
    ∀ s : List α, List.Sorted r s →
      List.filter p (List.orderedInsert r x s) =
        List.orderedInsert r x (List.filter p s)
  | [], _ => by simp [List.orderedInsert, List.filter_cons, hx]
  | z :: t, hs => by
      by_cases hz : r x z
      · have hall : ∀ y ∈ List.filter p (z :: t), r x y := by
          intro y hy
          have hyz : y ∈ z :: t := List.mem_of_mem_filter hy
          rcases List.mem_cons.mp hyz with hyz | hyt
          · exact hyz ▸ hz
          · exact Trans.trans hz (List.rel_of_sorted_cons hs y hyt)
        rw [List.orderedInsert, if_pos hz, List.filter_cons, if_pos hx,
          orderedInsert_of_forall_rel r hall]
      · rw [List.orderedInsert, if_neg hz, List.filter_cons, List.filter_cons]
        by_cases hp : p z
        · rw [if_pos hp, if_pos hp,
            filter_orderedInsert_pos p hx t hs.of_cons,
            List.orderedInsert, if_neg hz]
        · rw [if_neg (by simpa using hp), if_neg (by simpa using hp),
            filter_orderedInsert_pos p hx t hs.of_cons]

/-- Stable sorting commutes with filtering. -/
lemma filter_insertionSort [IsTotal α r] [IsTrans α r] (p : α → Bool) :
    ∀ l : List α,
      List.filter p (List.insertionSort r l) =
        List.insertionSort r (List.filter p l)
  | [] => rfl
  | x :: l => by
      by_cases hx : p x
      · rw [List.insertionSort, List.filter_cons, if_pos hx, List.insertionSort,
          filter_orderedInsert_pos r p hx _ (List.sorted_insertionSort r l),
          filter_insertionSort p l]
      · rw [List.insertionSort, List.filter_cons, if_neg (by simpa using hx),
          filter_orderedInsert_neg r p (by simpa using hx),
          filter_insertionSort p l]

end SortFilter

/-- Two name-sorted blob lists that are permutations of each other and
have pairwise-distinct names are equal. -/
lemma sorted_perm_eq_of_nodup_names :
    ∀ {l₁ l₂ : List Blob}, l₁.Perm l₂ → List.Sorted blobLe l₁ →
      List.Sorted blobLe l₂ → (l₁.map Blob.name).Nodup → l₁ = l₂
  | [], l₂, h, _, _, _ => (h.symm.eq_nil).symm
  | x :: t₁, [], h, _, _, _ => absurd h.eq_nil (by simp)
  | x :: t₁, y :: t₂, h, h₁, h₂, hn => by
      have hxy : x = y := by
        have hx2 : x ∈ y :: t₂ := h.mem_iff.mp (List.mem_cons_self x t₁)
        rcases List.mem_cons.mp hx2 with hxe | hxt
        · exact hxe
        · have hy1 : y ∈ x :: t₁ := h.symm.mem_iff.mp (List.mem_cons_self y t₂)
          rcases List.mem_cons.mp hy1 with hye | hyt
          · exact hye.symm
          · exfalso
            have hle : blobLe x y := List.rel_of_sorted_cons h₁ y hyt
            have hge : blobLe y x := List.rel_of_sorted_cons h₂ x hxt
            have hname : x.name = y.name :=
              string_eq_of_data_eq (le_antisymm hle hge)
            have : x.name ∈ t₁.map Blob.name := by
              exact hname ▸ List.mem_map_of_mem Blob.name hyt
            exact (List.nodup_cons.mp hn).1 this
      subst hxy
      have htp : t₁.Perm t₂ := h.cons_inv
      have := sorted_perm_eq_of_nodup_names htp h₁.of_cons h₂.of_cons
        (List.nodup_cons.mp hn).2
      rw [this]

/-- Sorting an already-sorted blob list changes nothing. -/
lemma sortBlobs_sortBlobs (l : List Blob) :
    sortBlobs (sortBlobs l) = sortBlobs l :=
  (List.sorted_insertionSort blobLe l).insertionSort_eq

/-- Shape of the single success write of the Process stage: whenever the
body succeeds, the resulting `update_deal` dictionary carries exactly the
seven field paths of `main.py` lines 212–220. -/
lemma process_deal_body_ok_shape {fu : List (String × String)}
    {ocr : Except String (List Blob)}
    {summ : String → Except String SummarizeResult}
    {gather : String → String → String → Except String PublicData}
    {now : Nat} {op : UpdateOp}
    (h : process_deal_body fu ocr summ gather now = .ok op) :
    ∃ et pub c f s,
      op = [FieldWrite.extractedText et, FieldWrite.publicData pub,
            FieldWrite.status "processed", FieldWrite.processedAt now,
            FieldWrite.companyName c, FieldWrite.founderNames f,
            FieldWrite.sector s] := by
  unfold process_deal_body at h
  dsimp only at h
  split at h
  · exact absurd h (by simp)
  · split at h
    · exact absurd h (by simp)
    · split at h
      · exact absurd h (by simp)
      · split at h
        · exact absurd h (by simp)
        · exact ⟨_, _, _, _, _, (Except.ok.injEq ..).mp h |>.symm⟩

/-- Status values written by one `generate_memo` call: none, on every
path of the endpoint. -/
lemma generate_memo_no_status (deal_id : String) (dealOpt : Option DealDoc)
    (w : Weightage) (m dx : Except String String) (now : Nat) :
    statusTrace (generate_memo deal_id dealOpt w m dx now).2 = [] := by
  have hops :
      (generate_memo deal_id dealOpt w m dx now).2 =
        (generate_memo_inner deal_id dealOpt w m dx now).2 := by
    unfold generate_memo
    rcases generate_memo_inner deal_id dealOpt w m dx now with ⟨r | e, ops⟩
    · rfl
    · rfl
  rw [hops]
  unfold generate_memo_inner
  rcases dealOpt with _ | d
  · rfl
  · dsimp only
    split
    · rfl
    · rcases m with e | mt
      · rfl
      · rcases dx with e | du
        · rfl
        · rfl

/-- Status values written across any list of `generate_memo` calls: none. -/
lemma statusTrace_memoCalls (deal_id : String) :
    ∀ calls : List MemoCall,
      statusTrace (calls.flatMap fun c =>
        (generate_memo deal_id c.dealOpt c.w c.memoOutcome c.docxOutcome
          c.now).2) = []
  | [] => rfl
  | c :: cs => by
      rw [List.flatMap_cons]
      unfold statusTrace
      rw [List.flatMap_append]
      have h1 := generate_memo_no_status deal_id c.dealOpt c.w c.memoOutcome
        c.docxOutcome c.now
      unfold statusTrace at h1
      rw [h1, List.nil_append]
      exact statusTrace_memoCalls deal_id cs

/-! ## Additional list lemmas for the extraction theorems -/

lemma filter_flatMap_eq {α β : Type} (l : List α) (f : α → List β)
    (p : β → Bool) :
    (l.flatMap f).filter p = l.flatMap fun a => (f a).filter p := by
  induction l with
  | nil => rfl
  | cons a l ih =>
      rw [List.flatMap_cons, List.filter_append, ih, List.flatMap_cons]

lemma pageTexts_filterMap (rs : List OcrResponse) :
    (rs.filterMap fun r =>
       let t := strTrim (responseText r)
       if t = "" then none else some t) =
      (rs.map fun r => strTrim (responseText r)).filter
        fun t => !(t == "") := by
  induction rs with
  | nil => rfl
  | cons r rs ih =>
      rw [List.filterMap_cons, List.map_cons, List.filter_cons]
      by_cases h : strTrim (responseText r) = ""
      · simp [h, ih]
      · simp [h, ih]

/-! ## Claim theorems -/

/-- Claim C9 (confirmed).  `_extract_text_from_pdf` always returns a
non-empty list of page texts: any exception gives exactly `[""]`, and a
run whose parsing yields no text at all also gives exactly `[""]`, so
callers can always index the first page. -/
theorem extract_result_always_nonempty :
    (∀ o : Except String (List Blob), extract_text_from_pdf o ≠ []) ∧
    (∀ e : String, extract_text_from_pdf (.error e) = [""]) ∧
    (∀ blobs : List Blob,
      ((sortBlobs blobs).filter blobIsJson).flatMap blobPageTexts = [] →
      extract_text_from_pdf (.ok blobs) = [""]) := by
  refine ⟨?_, fun _ => rfl, ?_⟩
  · intro o
    rcases o with e | blobs
    · simp [extract_text_from_pdf]
    · unfold extract_text_from_pdf extractFromBlobs
      dsimp only
      split
      · simp
      · rename_i h
        simpa [List.isEmpty_iff] using h
  · intro blobs h
    simp [extract_text_from_pdf, extractFromBlobs, h]

/-- Witness for C9: a run whose only artifact parses to no text yields
exactly the sentinel `[""]`. -/
theorem extract_result_always_nonempty_witness :
    extract_text_from_pdf (.ok [⟨"o.json", [⟨"", []⟩]⟩]) = [""] :=
  extract_result_always_nonempty.2.2 [⟨"o.json", [⟨"", []⟩]⟩] (by rfl)

/-- Counterexample to claim C4.  A zero-text page between two non-blank
pages is dropped from the returned sequence (`if page_text.strip():`
appends only non-blank texts), not returned as an empty string at its
position: a three-page artifact with a blank middle page yields
`["a", "b"]`, not `["a", "", "b"]`. -/
theorem blank_page_dropped_counterexample :
    extract_text_from_pdf
        (.ok [⟨"o.json", [⟨"a", []⟩, ⟨"", []⟩, ⟨"b", []⟩]⟩]) = ["a", "b"] ∧
    extract_text_from_pdf
        (.ok [⟨"o.json", [⟨"a", []⟩, ⟨"", []⟩, ⟨"b", []⟩]⟩]) ≠ ["a", "", "b"] :=
  ⟨rfl, by decide⟩

/-- Gathered page texts of every `.json` artifact in name-sorted order,
stripped, blank pages included — the reference sequence for the amended
claim C4. -/
def pageTextsAll (blobs : List Blob) : List String :=
  ((sortBlobs blobs).filter blobIsJson).flatMap fun b =>
    b.responses.map fun r => strTrim (responseText r)

/-- Claim C4 (amended).  A zero-text page does not fail the batch, but it
is dropped from the returned sequence rather than kept as an empty string
at its position: the result is exactly the non-blank stripped page texts
in name-sorted artifact order, and the sentinel `[""]` when every page is
blank. -/
theorem blank_pages_are_dropped (blobs : List Blob) :
    extract_text_from_pdf (.ok blobs) =
      if ((pageTextsAll blobs).filter fun t => !(t == "")).isEmpty then [""]
      else (pageTextsAll blobs).filter fun t => !(t == "") := by
  have key : ((sortBlobs blobs).filter blobIsJson).flatMap blobPageTexts =
      (pageTextsAll blobs).filter fun t => !(t == "") := by
    unfold pageTextsAll
    rw [filter_flatMap_eq]
    have hfun : blobPageTexts = fun b : Blob =>
        (b.responses.map fun r => strTrim (responseText r)).filter
          fun t => !(t == "") :=
      funext fun b => pageTexts_filterMap b.responses
    rw [hfun]
  show (if (((sortBlobs blobs).filter blobIsJson).flatMap
      blobPageTexts).isEmpty then [""]
    else ((sortBlobs blobs).filter blobIsJson).flatMap blobPageTexts) = _
  rw [key]

/-- Claim C8 (confirmed).  Reassembly is deterministic in the
lexicographic artifact-name order, not in creation order: listing the
artifacts in any other order (any permutation; names are distinct in a
Vision output batch) gives the same page texts, and an artifact whose
name is not of the expected `.json` output type is ignored wherever it
appears. -/
theorem artifact_order_and_type_filter :
    (∀ l₁ l₂ : List Blob, l₁.Perm l₂ → (l₁.map Blob.name).Nodup →
      extract_text_from_pdf (.ok l₁) = extract_text_from_pdf (.ok l₂)) ∧
    (∀ (l₁ l₂ : List Blob) (b : Blob), blobIsJson b = false →
      extract_text_from_pdf (.ok (l₁ ++ b :: l₂)) =
        extract_text_from_pdf (.ok (l₁ ++ l₂))) := by
  constructor
  · intro l₁ l₂ hperm hnd
    have hsp : (sortBlobs l₁).Perm (sortBlobs l₂) :=
      (List.perm_insertionSort blobLe l₁).trans
        (hperm.trans (List.perm_insertionSort blobLe l₂).symm)
    have hnd₁ : ((sortBlobs l₁).map Blob.name).Nodup :=
      (List.Perm.nodup_iff
        ((List.perm_insertionSort blobLe l₁).map Blob.name)).mpr hnd
    have heq : sortBlobs l₁ = sortBlobs l₂ :=
      sorted_perm_eq_of_nodup_names hsp
        (List.sorted_insertionSort blobLe l₁)
        (List.sorted_insertionSort blobLe l₂) hnd₁
    show extractFromBlobs l₁ = extractFromBlobs l₂
    unfold extractFromBlobs
    rw [heq]
  · intro l₁ l₂ b hb
    show extractFromBlobs (l₁ ++ b :: l₂) = extractFromBlobs (l₁ ++ l₂)
    unfold extractFromBlobs sortBlobs
    dsimp only
    rw [filter_insertionSort blobLe blobIsJson,
      filter_insertionSort blobLe blobIsJson]
    simp only [List.filter_append, List.filter_cons, hb, Bool.false_eq_true,
      if_false]

/-- Artifact fixtures for the C8 witness. -/
def demoBlobA : Blob := ⟨"a.json", [⟨"one", []⟩]⟩

/-- Artifact fixtures for the C8 witness. -/
def demoBlobB : Blob := ⟨"b.json", [⟨"two", []⟩]⟩

/-- Artifact fixtures for the C8 witness: not a `.json` output. -/
def demoBlobTxt : Blob := ⟨"a.txt", [⟨"junk", []⟩]⟩

/-- Witness for C8: two artifacts listed against their name order are
reassembled in name order, and a stray `.txt` artifact is ignored. -/
theorem artifact_order_and_type_filter_witness :
    extract_text_from_pdf (.ok [demoBlobB, demoBlobA]) =
      extract_text_from_pdf (.ok [demoBlobA, demoBlobB]) ∧
    extract_text_from_pdf
        (.ok ([demoBlobA] ++ demoBlobTxt :: [demoBlobB])) =
      extract_text_from_pdf (.ok ([demoBlobA] ++ [demoBlobB])) :=
  ⟨artifact_order_and_type_filter.1 _ _
      (List.Perm.swap demoBlobA demoBlobB []) (by decide),
    artifact_order_and_type_filter.2 _ _ _ (by decide)⟩

/-- Claim C5 (confirmed).  The Process stage is a total function of its
injected collaborator outcomes — no exception leaves the background
task — and for every run either the body succeeded and the deal document
ends with status `processed`, or some exception `e` was raised in the
body and the document ends with status `error` and `metadata.error =
str(e)`, visible to later status polling. -/
theorem process_errors_captured_and_recorded
    (fu : List (String × String)) (ocr : Except String (List Blob))
    (summ : String → Except String SummarizeResult)
    (gather : String → String → String → Except String PublicData)
    (now : Nat) (d : DealDoc) :
    (∃ op, process_deal_body fu ocr summ gather now = .ok op ∧
      (applyOps d (process_deal_ops fu ocr summ gather now)).metadata_status =
        some "processed") ∨
    (∃ e, process_deal_body fu ocr summ gather now = .error e ∧
      (applyOps d (process_deal_ops fu ocr summ gather now)).metadata_status =
        some "error" ∧
      (applyOps d (process_deal_ops fu ocr summ gather now)).metadata_error =
        some e) := by
  cases hb : process_deal_body fu ocr summ gather now with
  | error e =>
      right
      refine ⟨e, rfl, ?_, ?_⟩ <;>
        simp [process_deal_ops, hb, applyOps, applyOp, applyWrite]
  | ok op =>
      left
      obtain ⟨et, pub, c, f, s, hop⟩ := process_deal_body_ok_shape hb
      refine ⟨op, rfl, ?_⟩
      subst hop
      simp [process_deal_ops, hb, applyOps, applyOp, applyWrite]

/-- Status writes of one Process run: `processing` followed by either
`processed` (success) or `error` (the failure handler). -/
lemma statusTrace_process (fu : List (String × String))
    (ocr : Except String (List Blob))
    (summ : String → Except String SummarizeResult)
    (gather : String → String → String → Except String PublicData)
    (now : Nat) :
    statusTrace (process_deal_ops fu ocr summ gather now) =
        ["processing", "processed"] ∨
    statusTrace (process_deal_ops fu ocr summ gather now) =
        ["processing", "error"] := by
  cases hb : process_deal_body fu ocr summ gather now with
  | ok op =>
      left
      obtain ⟨et, pub, c, f, s, hop⟩ := process_deal_body_ok_shape hb
      subst hop
      simp [process_deal_ops, hb, statusTrace, statusWritesOfOp]
  | error e =>
      right
      simp [process_deal_ops, hb, statusTrace, statusWritesOfOp]

/-- Status trace of the whole lifecycle: the upload and memo calls write
no status, so the trace is `uploading` followed by the Process writes. -/
lemma lifecycleTrace_eq (fu : List (String × String))
    (ocr : Except String (List Blob))
    (summ : String → Except String SummarizeResult)
    (gather : String → String → String → Except String PublicData)
    (now : Nat) (deal_id : String) (calls : List MemoCall) :
    lifecycleStatusTrace fu ocr summ gather now deal_id calls =
      "uploading" :: statusTrace (process_deal_ops fu ocr summ gather now) := by
  unfold lifecycleStatusTrace lifecycle_ops
  unfold statusTrace
  rw [List.flatMap_cons, List.flatMap_append]
  have hm := statusTrace_memoCalls deal_id calls
  unfold statusTrace at hm
  rw [hm, List.append_nil]
  simp [statusWritesOfOp]

instance : DecidableRel statusLe := fun a b =>
  inferInstanceAs (Decidable (statusRank a ≤ statusRank b))

/-- Claim C6 (confirmed).  For every deal lifecycle — creation at
`uploading`, one background Process run, any number of `generate_memo`
calls with any outcomes — the sequence of observed status values is
non-decreasing in the order `uploading < processing < processed`, with
`error` above every non-error status; the trace is exactly
`[uploading, processing, processed]` or `[uploading, processing, error]`,
so nothing ever follows an `error` write (no operation leaves `error` or
moves backward, and memo generation writes no status at all); and the
terminal `error` trace is reachable. -/
theorem status_monotone_lifecycle :
    (∀ (fu : List (String × String)) (ocr : Except String (List Blob))
       (summ : String → Except String SummarizeResult)
       (gather : String → String → String → Except String PublicData)
       (now : Nat) (deal_id : String) (calls : List MemoCall),
      List.Chain' statusLe
        (lifecycleStatusTrace fu ocr summ gather now deal_id calls) ∧
      (lifecycleStatusTrace fu ocr summ gather now deal_id calls =
          ["uploading", "processing", "processed"] ∨
        lifecycleStatusTrace fu ocr summ gather now deal_id calls =
          ["uploading", "processing", "error"])) ∧
    (∃ fu ocr summ gather now deal_id calls,
      lifecycleStatusTrace fu ocr summ gather now deal_id calls =
        ["uploading", "processing", "error"]) := by
  constructor
  · intro fu ocr summ gather now deal_id calls
    have htr := lifecycleTrace_eq fu ocr summ gather now deal_id calls
    rcases statusTrace_process fu ocr summ gather now with h | h <;>
      rw [h] at htr
    · exact ⟨by rw [htr]; exact
        List.chain'_cons.mpr ⟨by decide,
          List.chain'_cons.mpr ⟨by decide, List.chain'_singleton _⟩⟩,
        Or.inl htr⟩
    · exact ⟨by rw [htr]; exact
        List.chain'_cons.mpr ⟨by decide,
          List.chain'_cons.mpr ⟨by decide, List.chain'_singleton _⟩⟩,
        Or.inr htr⟩
  · refine ⟨[], .ok [], fun _ => .error "llm", fun _ _ _ => .error "search",
      0, "d", [], ?_⟩
    rfl

/-- Claim C7 (confirmed).  Whenever the Process stage succeeds, the only
writes it performs are the initial `processing` status write and one
single `update_deal` field-merge dictionary that carries together
`extracted_text`, `public_data`, status `processed`, `processed_at`, and
the three metadata entity fields — not separate writes. -/
theorem process_success_commit_atomic
    (fu : List (String × String)) (ocr : Except String (List Blob))
    (summ : String → Except String SummarizeResult)
    (gather : String → String → String → Except String PublicData)
    (now : Nat) (op : UpdateOp)
    (h : process_deal_body fu ocr summ gather now = .ok op) :
    process_deal_ops fu ocr summ gather now =
      [[FieldWrite.status "processing"], op] ∧
    ∃ et pub c f s,
      op = [FieldWrite.extractedText et, FieldWrite.publicData pub,
            FieldWrite.status "processed", FieldWrite.processedAt now,
            FieldWrite.companyName c, FieldWrite.founderNames f,
            FieldWrite.sector s] := by
  refine ⟨?_, process_deal_body_ok_shape h⟩
  simp [process_deal_ops, h]

/-- Witness for C7: a concrete fully-successful run commits everything in
one write after the `processing` status write. -/
theorem process_success_commit_atomic_witness :
    process_deal_ops [("pitch_deck_url", "gs://b/p.pdf")] (.ok [])
        (fun _ => .ok ⟨"sum", "founders", "fintech", "Acme"⟩)
        (fun _ _ _ => .ok "public") 7 =
      [[FieldWrite.status "processing"],
       [FieldWrite.extractedText [("pitch_deck", ⟨[("1", "")], "sum"⟩)],
        FieldWrite.publicData "public", FieldWrite.status "processed",
        FieldWrite.processedAt 7, FieldWrite.companyName "Acme",
        FieldWrite.founderNames "founders", FieldWrite.sector "fintech"]] :=
  (process_success_commit_atomic _ _ _ _ _ _ (by rfl)).1

/-- Claim C10 (confirmed).  A deal whose `file_urls` has no
`pitch_deck_url` key never reaches `processed`: the extraction block is
skipped, `temp_res` stays `{}`, indexing
`temp_res["company_name_response"]` raises `KeyError`, and the run always
ends in the failure handler with status `error`. -/
theorem missing_pitch_deck_always_errors
    (fu : List (String × String)) (ocr : Except String (List Blob))
    (summ : String → Except String SummarizeResult)
    (gather : String → String → String → Except String PublicData)
    (now : Nat) (d : DealDoc)
    (h : fu.lookup "pitch_deck_url" = none) :
    process_deal_ops fu ocr summ gather now =
      [[FieldWrite.status "processing"],
       [FieldWrite.status "error",
        FieldWrite.errMsg (keyErrorMsg "company_name_response")]] ∧
    (applyOps d (process_deal_ops fu ocr summ gather now)).metadata_status =
      some "error" := by
  have hb : process_deal_body fu ocr summ gather now =
      .error (keyErrorMsg "company_name_response") := by
    unfold process_deal_body pdfStep
    rw [h]
    rfl
  constructor
  · simp [process_deal_ops, hb]
  · simp [process_deal_ops, hb, applyOps, applyOp, applyWrite]

/-- Witness for C10: a deal uploaded with no files at all ends in
`error`. -/
theorem missing_pitch_deck_always_errors_witness :
    (applyOps (initialDeal "d1" 0)
        (process_deal_ops [] (.ok []) (fun _ => .ok ⟨"s", "f", "se", "c"⟩)
          (fun _ _ _ => .ok "public") 3)).metadata_status = some "error" :=
  (missing_pitch_deck_always_errors [] (.ok [])
    (fun _ => .ok ⟨"s", "f", "se", "c"⟩) (fun _ _ _ => .ok "public") 3
    (initialDeal "d1" 0) rfl).2

/-- Counterexample to claim C1.  When Enrichment fails after Extraction
and Summarization both succeeded, `extracted_text` has NOT been persisted
to the Deal Store: the pipeline holds it in a local variable and commits
it only in the single success write that comes after Enrichment, so the
failed deal's document carries status `error` and no `extracted_text`
field at all. -/
theorem enrichment_failure_extracted_text_not_persisted :
    (applyOps
        (applyOp (initialDeal "d1" 0)
          [FieldWrite.rawFiles [("pitch_deck_url", "gs://b/p.pdf")]])
        (process_deal_ops [("pitch_deck_url", "gs://b/p.pdf")]
          (.ok [⟨"o.json", [⟨"Acme pitch", []⟩]⟩])
          (fun _ => .ok ⟨"sum", "f", "s", "Acme"⟩)
          (fun _ _ _ => .error "search failed") 3)).extracted_text = none ∧
    (applyOps
        (applyOp (initialDeal "d1" 0)
          [FieldWrite.rawFiles [("pitch_deck_url", "gs://b/p.pdf")]])
        (process_deal_ops [("pitch_deck_url", "gs://b/p.pdf")]
          (.ok [⟨"o.json", [⟨"Acme pitch", []⟩]⟩])
          (fun _ => .ok ⟨"sum", "f", "s", "Acme"⟩)
          (fun _ _ _ => .error "search failed") 3)).metadata_status =
      some "error" :=
  ⟨rfl, rfl⟩

/-- Claim C1 (amended).  A failure in any Process stage never erases data
committed by earlier stages: the failure handler's write touches only
`metadata.status` and `metadata.error`, so the post-failure document is
exactly the pre-processing document with those two fields changed — but
`extracted_text` is not among the previously committed data when
Enrichment fails, because the pipeline commits it only in the single
success write after Enrichment. -/
theorem stage_failure_writes_only_status_and_error
    (fu : List (String × String)) (ocr : Except String (List Blob))
    (summ : String → Except String SummarizeResult)
    (gather : String → String → String → Except String PublicData)
    (now : Nat) (d : DealDoc) (e : String)
    (h : process_deal_body fu ocr summ gather now = .error e) :
    process_deal_ops fu ocr summ gather now =
      [[FieldWrite.status "processing"],
       [FieldWrite.status "error", FieldWrite.errMsg e]] ∧
    applyOps d (process_deal_ops fu ocr summ gather now) =
      { d with metadata_status := some "error", metadata_error := some e } := by
  constructor
  · simp [process_deal_ops, h]
  · simp [process_deal_ops, h, applyOps, applyOp, applyWrite]

/-- Witness for amended C1: a concrete enrichment failure leaves every
field of the pre-processing document untouched except `metadata.status`
and `metadata.error`. -/
theorem stage_failure_writes_only_status_and_error_witness :
    applyOps (initialDeal "d1" 0)
        (process_deal_ops [("pitch_deck_url", "gs://b/p.pdf")] (.ok [])
          (fun _ => .ok ⟨"sum", "f", "s", "c"⟩)
          (fun _ _ _ => .error "enrichment down") 3) =
      { (initialDeal "d1" 0) with
          metadata_status := some "error",
          metadata_error := some "enrichment down" } :=
  (stage_failure_writes_only_status_and_error
    [("pitch_deck_url", "gs://b/p.pdf")] (.ok [])
    (fun _ => .ok ⟨"sum", "f", "s", "c"⟩)
    (fun _ _ _ => .error "enrichment down") 3 (initialDeal "d1" 0)
    "enrichment down" (by rfl)).2

/-- Claim C2 (code bug).  Calling `generate_memo` on a deal whose status
is not `processed` writes nothing — in particular no `memo` field — and
is rejected; but the rejection reaches the client as HTTP 500, not as
the intended 400-level precondition failure: the handler raises
`HTTPException(400, "Deal processing not complete")` inside its own
`try`, whose blanket `except Exception` catches it (a Starlette
`HTTPException` is an `Exception`) and re-raises
`HTTPException(500, str(e))` with `str(e) = "400: Deal processing not
complete"`. -/
theorem memo_precondition_rejected_as_500 :
    generate_memo "d1"
        (some { deal_id := "d1", metadata_status := some "processing" })
        "w" (.ok "memo text") (.ok "gs://b/m.docx") 9 =
      (.error ⟨500, "400: Deal processing not complete"⟩, []) :=
  rfl

/-- Claim C3 (code bug).  An error inside `process_pdf` (any summarizer
failure) is indeed absorbed into the single-empty-page sentinel
`{"raw": {"1": ""}, "concise": "Error in OCR processing."}` instead of
propagating — but that sentinel lacks the `company_name_response`,
`founder_response` and `sector_response` keys, so the Process stage does
not continue on the empty-text codepath: `process_deal` raises
`KeyError('company_name_response')` on it and the deal ends in status
`error`, contradicting the code's own comment that the sentinel is "a
safe structure so callers don't break". -/
theorem extraction_sentinel_breaks_process :
    process_pdf (.ok [⟨"o.json", [⟨"Acme pitch", []⟩]⟩])
        (fun _ => .error "LLM failure") =
      { raw := [("1", "")], concise := "Error in OCR processing.",
        founder_response := none, sector_response := none,
        company_name_response := none } ∧
    (applyOps (initialDeal "d1" 0)
        (process_deal_ops [("pitch_deck_url", "gs://b/p.pdf")]
          (.ok [⟨"o.json", [⟨"Acme pitch", []⟩]⟩])
          (fun _ => .error "LLM failure")
          (fun _ _ _ => .ok "public") 3)).metadata_status = some "error" ∧
    (applyOps (initialDeal "d1" 0)
        (process_deal_ops [("pitch_deck_url", "gs://b/p.pdf")]
          (.ok [⟨"o.json", [⟨"Acme pitch", []⟩]⟩])
          (fun _ => .error "LLM failure")
          (fun _ _ _ => .ok "public") 3)).metadata_error =
      some (keyErrorMsg "company_name_response") :=
  ⟨rfl, rfl, rfl⟩

end PitchLens
